import Mathlib

/-!
Verification of the fetch/parse/aggregate pipeline of `linkedin_job_scraper.py`.

The Python source is shallowly embedded: pure helpers become Lean functions on
`String` / `List Char`; the network is an oracle (`Nat → FetchOutcome` for the
scrape loop, `Nat → AttemptOutcome` for the per-attempt retry loop inside
`NetworkManager.fetch_page`); the `while` loop of `LinkedInJobScraper.scrape`
becomes a fuel-indexed recursion over an explicit `RunState`; Python exceptions
become `Except` values.
-/

/-! ## String helpers (Python `str` operations used by the scraper) -/

/-- Python `str.split()` with no argument: split on runs of whitespace,
dropping empty pieces.  The second argument accumulates the current word
(in reverse). -/
def split_ws : List Char → List Char → List (List Char)
  | [], [] => []
  | [], acc => [acc.reverse]
  | c :: cs, acc =>
    if c.isWhitespace then
      if acc = [] then split_ws cs []
      else acc.reverse :: split_ws cs []
    else split_ws cs (c :: acc)

/-- Python `str.strip()`: drop leading and trailing whitespace. -/
def py_strip (l : List Char) : List Char :=
  ((l.dropWhile Char.isWhitespace).reverse.dropWhile Char.isWhitespace).reverse

/-- Python `c in s` for a single character. -/
def py_in (c : Char) : List Char → Bool
  | [] => false
  | x :: xs => x == c || py_in c xs

/-- Python `s.split('?')[0]`: everything before the first `'?'`. -/
def take_until_q : List Char → List Char
  | [] => []
  | c :: cs => if c == '?' then [] else c :: take_until_q cs

/-- Python `s.startswith(p)`. -/
def pyStartsWith (s p : String) : Bool :=
  p.data.isPrefixOf s.data

/-- Python `s.lower()`. -/
def py_lower (s : String) : String :=
  String.mk (s.data.map Char.toLower)

/-- `LinkedInJobScraper._clean_text`: collapse internal whitespace runs to
single spaces and trim; empty input or empty result becomes `"N/A"`. -/
def clean_text (text : String) : String :=
  if text = "" then "N/A"
  else
    let cleaned : List Char := List.intercalate [' '] (split_ws text.data [])
    if cleaned = [] then "N/A" else String.mk (py_strip cleaned)

/-! ## Data model -/

/-- One extracted listing (the dict built by `_parse_job_card`). -/
structure Job where
  job_title : String
  company : String
  location : String
  url : String
  posted_date : String
deriving DecidableEq, Repr

/-- A markup element as seen by the extractor: its text content and the
`href` / `datetime` attributes when present (`none` models a missing
attribute, `some ""` an empty one — both falsy in the Python code). -/
structure Elem where
  text : String
  href : Option String := none
  datetime : Option String := none
deriving DecidableEq, Repr

/-- One candidate `<li>` job card.  Each field is the result of one of the
`card.find(...)` queries appearing in `_parse_job_card`, in source order:
`none` means the query found nothing. -/
structure Card where
  h3_base_title : Option Elem := none
  h3_class_title : Option Elem := none
  h3_any : Option Elem := none
  a_full_link : Option Elem := none
  h4_subtitle : Option Elem := none
  a_hidden_nested : Option Elem := none
  h4_any : Option Elem := none
  a_company : Option Elem := none
  span_location : Option Elem := none
  span_class_location : Option Elem := none
  span_metadata : Option Elem := none
  a_jobs_view : Option Elem := none
  a_href : Option Elem := none
  time_listdate : Option Elem := none
  time_listdate_new : Option Elem := none
  time_any : Option Elem := none
  span_date : Option Elem := none
deriving DecidableEq, Repr

/-! ## URL normalization (`_parse_job_card`, URL branch) -/

def SITE_ORIGIN : String := "https://www.linkedin.com"

/-- `job_url.split('?')[0] if '?' in job_url else job_url`. -/
def strip_query (u : String) : String :=
  if py_in '?' u.data then String.mk (take_until_q u.data) else u

/-- The URL normalization of `_parse_job_card`: site-relative hrefs are
prefixed with the origin, hrefs without a scheme (`startswith('http')`
being the code's scheme test) are prefixed with `origin + "/"`, and the
query string is stripped. -/
def normalize_url (job_url : String) : String :=
  let u :=
    if pyStartsWith job_url "/" then SITE_ORIGIN ++ job_url
    else if !(pyStartsWith job_url "http") then SITE_ORIGIN ++ "/" ++ job_url
    else job_url
  strip_query u

/-! ## Field extraction (`_parse_job_card`)

Each Python `elem_a or elem_b or ...` chain of `find` results becomes an
`Option.orElse` chain over the corresponding `Card` fields. -/

def extract_title (card : Card) : String :=
  match card.h3_base_title <|> card.h3_class_title <|> card.h3_any <|> card.a_full_link with
  | some e => clean_text e.text
  | none => "N/A"

def extract_company (card : Card) : String :=
  match card.h4_subtitle <|> card.a_hidden_nested <|> card.h4_any <|> card.a_company with
  | some e => clean_text e.text
  | none => "N/A"

def extract_location (card : Card) : String :=
  match card.span_location <|> card.span_class_location <|> card.span_metadata with
  | some e => clean_text e.text
  | none => "N/A"

/-- URL extraction: `if url_elem and url_elem.get('href')` — the first found
link element must carry a non-empty `href`, which is then normalized. -/
def extract_url (card : Card) : String :=
  match card.a_full_link <|> card.a_jobs_view <|> card.a_href with
  | some e =>
    match e.href with
    | some h => if h = "" then "N/A" else normalize_url h
    | none => "N/A"
  | none => "N/A"

/-- Posted-date extraction: `date_elem.get('datetime') or clean(text)`. -/
def extract_posted (card : Card) : String :=
  match card.time_listdate <|> card.time_listdate_new <|> card.time_any <|> card.span_date with
  | some e =>
    match e.datetime with
    | some d => if d = "" then clean_text e.text else d
    | none => clean_text e.text
  | none => "N/A"

/-- `LinkedInJobScraper._parse_job_card`: early rejection when the cleaned
title is the sentinel or shorter than 2 characters, final acceptance only
when both title and url are non-sentinel. -/
def parse_job_card (card : Card) : Option Job :=
  let job_title := extract_title card
  if job_title = "N/A" ∨ job_title.length < 2 then none
  else
    let company := extract_company card
    let location := extract_location card
    let url := extract_url card
    let posted_date := extract_posted card
    if job_title ≠ "N/A" ∧ url ≠ "N/A" then
      some { job_title := job_title, company := company, location := location,
             url := url, posted_date := posted_date }
    else none

/-- `LinkedInJobScraper.parse_jobs`: the page markup is modelled as the list
of its `<li>` candidate elements; cards that fail to parse are skipped. -/
def parse_jobs (cards : List Card) : List Job :=
  cards.filterMap parse_job_card

/-! ## Deduplication (`_deduplicate_jobs`) -/

/-- `LinkedInJobScraper._deduplicate_jobs`: keep a job when its url is truthy
(non-empty) and not yet in the `seen` set (modelled as a list of urls). -/
def deduplicate_jobs : List Job → List String → List Job
  | [], _ => []
  | j :: rest, seen =>
    if j.url ≠ "" ∧ j.url ∉ seen then j :: deduplicate_jobs rest (j.url :: seen)
    else deduplicate_jobs rest seen

/-! ## Transport (`NetworkManager.fetch_page`) -/

/-- Terminal transport failures: the exceptions `fetch_page` raises instead
of retrying (`RateLimitError`, `AccessBlockedError`, `SSLError`,
`ConnectionError` after all reachability probes fail). -/
inductive TermKind
  | rateLimited
  | accessBlocked
  | sslFailure
  | noConnectivity
deriving DecidableEq, Repr

/-- What one HTTP attempt inside `fetch_page` observes. -/
inductive AttemptOutcome
  | success (html : List Card)
  | otherStatus
  | timeout
  | connectionError (internet_up : Bool)
  | httpError (status : Option Nat)
  | sslError
  | requestException
deriving DecidableEq, Repr

/-- The attempt classes that `fetch_page` retries locally. -/
def transient_outcome : AttemptOutcome → Bool
  | .timeout => true
  | .connectionError up => up
  | .httpError st => !(st == some 429) && !(st == some 403)
  | .requestException => true
  | _ => false

/-- The retry loop of `NetworkManager.fetch_page`: `remaining` attempts are
left, `attempt` indexes the oracle.  Exhausting the attempts returns
`.ok none` ("no page available"); 429/403/SSL/no-connectivity raise. -/
def fetch_page_go (attempts : Nat → AttemptOutcome) :
    Nat → Nat → Except TermKind (Option (List Card))
  | 0, _ => .ok none
  | remaining + 1, attempt =>
    match attempts attempt with
    | .success html => .ok (some html)
    | .otherStatus => .ok none
    | .timeout => fetch_page_go attempts remaining (attempt + 1)
    | .connectionError up =>
      if up then fetch_page_go attempts remaining (attempt + 1)
      else .error .noConnectivity
    | .httpError st =>
      if st == some 429 then .error .rateLimited
      else if st == some 403 then .error .accessBlocked
      else fetch_page_go attempts remaining (attempt + 1)
    | .sslError => .error .sslFailure
    | .requestException => fetch_page_go attempts remaining (attempt + 1)

/-- `NetworkManager.fetch_page` with `max_retries` attempts. -/
def fetch_page (attempts : Nat → AttemptOutcome) (max_retries : Nat) :
    Except TermKind (Option (List Card)) :=
  fetch_page_go attempts max_retries 0

/-! ## Query building (`fetch_job_page`) -/

structure SearchQuery where
  keywords : String
  location : String
  experience_level : Option String := none
deriving DecidableEq, Repr

/-- The request parameters sent for one page. -/
structure Params where
  keywords : String
  location : String
  start : Nat
  f_E : Option String := none
deriving DecidableEq, Repr

def EXPERIENCE_LEVELS : List (String × String) :=
  [("internship", "1"), ("entry", "2"), ("associate", "3"),
   ("mid-senior", "4"), ("director", "5"), ("executive", "6")]

/-- `fetch_job_page`: the `f_E` parameter is added only when the experience
level is present and (lowercased) recognized. -/
def build_params (q : SearchQuery) (start : Nat) : Params :=
  let base : Params := { keywords := q.keywords, location := q.location,
                         start := start, f_E := none }
  match q.experience_level with
  | none => base
  | some lvl =>
    match EXPERIENCE_LEVELS.lookup (py_lower lvl) with
    | some code => { base with f_E := some code }
    | none => base

/-! ## The scrape loop (`LinkedInJobScraper.scrape`) -/

def JOBS_PER_PAGE : Nat := 25

def max_consecutive_empty : Nat := 3

/-- What one call of `fetch_job_page` can yield inside the scrape loop:
a raised terminal failure, `None` (transient exhaustion), or page markup
(modelled by its candidate cards). -/
inductive FetchOutcome
  | terminal (k : TermKind)
  | noPage
  | page (cards : List Card)
deriving DecidableEq, Repr

inductive StopReason
  | targetReached
  | tooManyEmpty
deriving DecidableEq, Repr

/-- The mutable locals of `scrape`, plus instrumentation: `call` counts the
fetches performed (indexing the oracle) and `requests` records the request
parameters of every network call issued, in order. -/
structure RunState where
  all_jobs : List Job
  start : Nat
  consecutive_empty : Nat
  call : Nat
  requests : List Params
deriving DecidableEq, Repr

def init_state : RunState :=
  { all_jobs := [], start := 0, consecutive_empty := 0, call := 0, requests := [] }

/-- The result of one iteration of the `while` body of `scrape`: either the
loop is over (normally with a final state and stop reason, or with a raised
terminal failure that discards the state), or it continues. -/
inductive StepResult
  | done (r : Except TermKind (RunState × StopReason))
  | next (s : RunState)

/-- One iteration of the `while` body of `scrape` (source lines 841-885):
fetch, count consecutive empptiness, extend `all_jobs`, advance `start`,
and check the two `break` conditions.  A `FetchOutcome.terminal` models the
exception propagating out of the loop. -/
def scrape_step (q : SearchQuery) (num_jobs : Nat) (oracle : Nat → FetchOutcome)
    (s : RunState) : StepResult :=
  let p := build_params q s.start
  let s0 : RunState := { s with requests := s.requests ++ [p], call := s.call + 1 }
  match oracle s.call with
  | .terminal k => .done (.error k)
  | .noPage =>
    let ce := s.consecutive_empty + 1
    if ce ≥ max_consecutive_empty then
      .done (.ok ({ s0 with consecutive_empty := ce }, .tooManyEmpty))
    else .next { s0 with consecutive_empty := ce }
  | .page cards =>
    let page_jobs := parse_jobs cards
    if page_jobs.isEmpty then
      let ce := s.consecutive_empty + 1
      if ce ≥ max_consecutive_empty then
        .done (.ok ({ s0 with consecutive_empty := ce }, .tooManyEmpty))
      else
        let s1 : RunState := { s0 with consecutive_empty := ce, start := s.start + JOBS_PER_PAGE }
        if s1.all_jobs.length ≥ num_jobs then .done (.ok (s1, .targetReached))
        else .next s1
    else
      let s1 : RunState := { s0 with consecutive_empty := 0, all_jobs := s.all_jobs ++ page_jobs, start := s.start + JOBS_PER_PAGE }
      if s1.all_jobs.length ≥ num_jobs then .done (.ok (s1, .targetReached))
      else .next s1

/-- The `while len(all_jobs) < num_jobs` loop, fuel-indexed (`none` = out of
fuel; the Python loop terminates on every oracle, but the embedding makes
termination explicit). -/
def scrape_loop (q : SearchQuery) (num_jobs : Nat) (oracle : Nat → FetchOutcome) :
    Nat → RunState → Option (Except TermKind (RunState × StopReason))
  | 0, _ => none
  | fuel + 1, s =>
    if s.all_jobs.length < num_jobs then
      match scrape_step q num_jobs oracle s with
      | .done r => some r
      | .next s' => scrape_loop q num_jobs oracle fuel s'
    else some (.ok (s, .targetReached))

/-- `LinkedInJobScraper.scrape`: run the loop, then deduplicate and trim to
`num_jobs`.  A terminal transport failure propagates as `.error` -- the
post-loop deduplicate/trim/return code never runs in that case, exactly as
in the Python source where the exception escapes `scrape`. -/
def scrape (q : SearchQuery) (num_jobs : Nat) (oracle : Nat → FetchOutcome)
    (fuel : Nat) : Option (Except TermKind (List Job × StopReason)) :=
  match scrape_loop q num_jobs oracle fuel init_state with
  | none => none
  | some (.error k) => some (.error k)
  | some (.ok (s, r)) =>
    let deduped := deduplicate_jobs s.all_jobs []
    let final := if deduped.length > num_jobs then deduped.take num_jobs else deduped
    some (.ok (final, r))

/-! ## Input validation (`validate_job_count`) -/

/-- Python `int(value)`: strip whitespace, optional sign, all digits. -/
def digits_val : List Char → Nat → Option Nat
  | [], acc => some acc
  | c :: cs, acc =>
    if c.isDigit then digits_val cs (acc * 10 + (c.toNat - 48)) else none

def py_int (s : String) : Option Int :=
  match py_strip s.data with
  | [] => none
  | '+' :: ds => if ds = [] then none else (digits_val ds 0).map (fun n => (n : Int))
  | '-' :: ds => if ds = [] then none else (digits_val ds 0).map (fun n => -(n : Int))
  | ds => (digits_val ds 0).map (fun n => (n : Int))

/-- `validate_job_count` (the Python default for `max_limit` is 500): blank
input returns the default 50 before any other check; otherwise parse, then
reject non-positive values and values above `max_limit`. -/
def validate_job_count (value : String) (max_limit : Int) : Except String Int :=
  if py_strip value.data = [] then .ok 50
  else
    match py_int value with
    | none => .error "not a number"
    | some num =>
      if num ≤ 0 then .error "not positive"
      else if num > max_limit then .error "exceeds maximum limit"
      else .ok num

/-- A fetch outcome that yields zero accepted records inside the loop:
either no page came back, or the page parsed to an empty record list. -/
def zero_yield : FetchOutcome → Bool
  | .noPage => true
  | .page cards => (parse_jobs cards).isEmpty
  | .terminal _ => false

/-! ## Concrete example data (used by witnesses and counterexamples) -/

def exTitleElem : Elem := { text := "  Alpha   Dev " }

def exTitleElemB : Elem := { text := "Beta Dev" }

def exLinkElem : Elem := { text := "link", href := some "/jobs/view/9?refId=abc" }

/-- A card whose title comes from the primary heading and whose link is a
site-relative href with a query string. -/
def exCard : Card := { h3_base_title := some exTitleElem, a_href := some exLinkElem }

/-- A card with a different title but the same link as `exCard`. -/
def exCardB : Card := { h3_base_title := some exTitleElemB, a_href := some exLinkElem }

def exJob : Job :=
  { job_title := "Alpha Dev", company := "N/A", location := "N/A",
    url := "https://www.linkedin.com/jobs/view/9", posted_date := "N/A" }

def exJobB : Job :=
  { job_title := "Beta Dev", company := "N/A", location := "N/A",
    url := "https://www.linkedin.com/jobs/view/9", posted_date := "N/A" }

def exQuery : SearchQuery :=
  { keywords := "python developer", location := "India", experience_level := none }

def exQueryEmptyKw : SearchQuery :=
  { keywords := "", location := "India", experience_level := none }

/-- A transport that returns one productive page, then rate-limits. -/
def cexOracleTerminal : Nat → FetchOutcome :=
  fun i => if i = 0 then .page [exCard] else .terminal .rateLimited

/-- A transport whose first page contains two records with the same url. -/
def cexOracleDup : Nat → FetchOutcome :=
  fun _ => .page [exCard, exCardB]

/-! ## Lemmas about the string helpers -/

lemma nil_isPrefixOf (l : List Char) : List.isPrefixOf ([] : List Char) l = true := by
  cases l <;> rfl

lemma py_in_eq_false_of_not_mem {c : Char} : ∀ {l : List Char}, c ∉ l → py_in c l = false := by
  intro l h
  induction l with
  | nil => rfl
  | cons x xs ih =>
    simp only [py_in, Bool.or_eq_false_iff]
    refine ⟨beq_eq_false_iff_ne.mpr ?_, ih (fun hm => h (List.mem_cons_of_mem x hm))⟩
    intro hx
    exact h (hx ▸ List.mem_cons_self x xs)

lemma py_in_take_until_q : ∀ l : List Char, py_in '?' (take_until_q l) = false := by
  intro l
  induction l with
  | nil => rfl
  | cons c cs ih =>
    simp only [take_until_q]
    cases hc : (c == '?') with
    | true => simp [py_in]
    | false => simp [py_in, hc, ih]

lemma take_until_q_append {a : List Char} (ha : py_in '?' a = false) :
    ∀ b, take_until_q (a ++ b) = a ++ take_until_q b := by
  induction a with
  | nil => intro b; rfl
  | cons c cs ih =>
    intro b
    simp only [py_in, Bool.or_eq_false_iff] at ha
    simp only [List.cons_append, take_until_q, ha.1, Bool.false_eq_true, not_false_iff,
      ite_false]
    simp [ih ha.2]

lemma isPrefixOf_append_self : ∀ (a b : List Char), a.isPrefixOf (a ++ b) = true := by
  intro a
  induction a with
  | nil => intro b; exact nil_isPrefixOf _
  | cons c cs ih => intro b; simp [List.isPrefixOf, ih]

lemma isPrefixOf_take_until_q :
    ∀ (a l : List Char), a.isPrefixOf l = true → py_in '?' a = false →
      a.isPrefixOf (take_until_q l) = true := by
  intro a
  induction a with
  | nil => intro l _ _; exact nil_isPrefixOf _
  | cons c cs ih =>
    intro l hp hq
    cases l with
    | nil => simp [List.isPrefixOf] at hp
    | cons d ds =>
      simp only [List.isPrefixOf, Bool.and_eq_true] at hp
      simp only [py_in, Bool.or_eq_false_iff] at hq
      have hcd : c = d := by simpa using hp.1
      have hdq : (d == '?') = false := by
        rw [← hcd]
        exact hq.1
      simp only [take_until_q, hdq, Bool.false_eq_true, not_false_iff, ite_false,
        List.isPrefixOf, Bool.and_eq_true]
      exact ⟨hp.1, ih ds hp.2 hq.2⟩

lemma str_data_append (a b : String) : (a ++ b).data = a.data ++ b.data := by
  cases a; cases b; rfl

/-! ## Lemmas about URL normalization -/

lemma strip_query_no_q (u : String) : py_in '?' (strip_query u).data = false := by
  unfold strip_query
  cases hq : py_in '?' u.data with
  | false => simpa [hq]
  | true => simp [hq, py_in_take_until_q]

lemma strip_query_http (u : String) (h : pyStartsWith u "http" = true) :
    pyStartsWith (strip_query u) "http" = true := by
  unfold strip_query
  unfold pyStartsWith at h ⊢
  cases hq : py_in '?' u.data with
  | false => simpa [hq] using h
  | true =>
    simp only [hq, if_true]
    exact isPrefixOf_take_until_q _ _ h (by decide)

lemma pyStartsWith_origin_append (s : String) :
    pyStartsWith (SITE_ORIGIN ++ s) "http" = true := by
  unfold pyStartsWith
  rw [str_data_append]
  have hd : SITE_ORIGIN.data = "http".data ++ "s://www.linkedin.com".data := by decide
  rw [hd, List.append_assoc]
  exact isPrefixOf_append_self _ _

lemma normalize_url_http (h : String) : pyStartsWith (normalize_url h) "http" = true := by
  unfold normalize_url
  cases h1 : pyStartsWith h "/" with
  | true =>
    simp only [h1, if_true]
    exact strip_query_http _ (pyStartsWith_origin_append h)
  | false =>
    cases h2 : pyStartsWith h "http" with
    | true =>
      simp only [h1, h2, Bool.not_true, Bool.false_eq_true, if_false, ite_false]
      exact strip_query_http _ h2
    | false =>
      simp only [h1, Bool.false_eq_true, if_false, h2, Bool.not_false, if_true]
      have hb := pyStartsWith_origin_append ("/" ++ h)
      rw [← String.append_assoc] at hb
      exact strip_query_http _ hb

lemma normalize_url_no_q (h : String) : py_in '?' (normalize_url h).data = false := by
  unfold normalize_url
  exact strip_query_no_q _

lemma normalize_url_ne_empty (h : String) : normalize_url h ≠ "" := by
  intro he
  have hh := normalize_url_http h
  rw [he] at hh
  simpa [pyStartsWith, List.isPrefixOf] using hh

lemma normalize_url_ne_na (h : String) : normalize_url h ≠ "N/A" := by
  intro he
  have hh := normalize_url_http h
  rw [he] at hh
  simpa [pyStartsWith, List.isPrefixOf] using hh

/-! ## Lemmas about candidate extraction -/

lemma extract_url_shape (card : Card) :
    extract_url card = "N/A" ∨
      ∃ h : String, h ≠ "" ∧ extract_url card = normalize_url h := by
  cases hc : card.a_full_link <|> card.a_jobs_view <|> card.a_href with
  | none => exact Or.inl (by simp [extract_url, hc])
  | some e =>
    cases he : e.href with
    | none => exact Or.inl (by simp [extract_url, hc, he])
    | some h =>
      by_cases hh : h = ""
      · exact Or.inl (by simp [extract_url, hc, he, hh])
      · exact Or.inr ⟨h, hh, by simp [extract_url, hc, he, hh]⟩

lemma parse_job_card_eq_some {card : Card} {j : Job}
    (h : parse_job_card card = some j) :
    j.job_title = extract_title card ∧ j.url = extract_url card ∧
      extract_title card ≠ "N/A" ∧ 2 ≤ (extract_title card).length ∧
      extract_url card ≠ "N/A" := by
  simp only [parse_job_card] at h
  by_cases h1 : extract_title card = "N/A" ∨ (extract_title card).length < 2
  · rw [if_pos h1] at h
    exact absurd h (by simp)
  · rw [if_neg h1] at h
    push_neg at h1
    by_cases h2 : extract_title card ≠ "N/A" ∧ extract_url card ≠ "N/A"
    · rw [if_pos h2] at h
      injection h with h
      refine ⟨?_, ?_, h1.1, by omega, h2.2⟩
      · rw [← h]
      · rw [← h]
    · rw [if_neg h2] at h
      exact absurd h (by simp)

lemma parse_job_card_url_nonempty {card : Card} {j : Job}
    (h : parse_job_card card = some j) : j.url ≠ "" := by
  obtain ⟨-, hurl, -, -, hna⟩ := parse_job_card_eq_some h
  rcases extract_url_shape card with hs | ⟨u, -, hs⟩
  · exact absurd hs hna
  · rw [hurl, hs]
    exact normalize_url_ne_empty u

lemma parse_job_card_url_normalized {card : Card} {j : Job}
    (h : parse_job_card card = some j) :
    ∃ u : String, u ≠ "" ∧ j.url = normalize_url u := by
  obtain ⟨-, hurl, -, -, hna⟩ := parse_job_card_eq_some h
  rcases extract_url_shape card with hs | ⟨u, hu, hs⟩
  · exact absurd hs hna
  · exact ⟨u, hu, by rw [hurl, hs]⟩

/-! ## Lemmas about deduplication -/

lemma deduplicate_sublist : ∀ (l : List Job) (seen : List String),
    List.Sublist (deduplicate_jobs l seen) l := by
  intro l
  induction l with
  | nil => intro seen; simp [deduplicate_jobs]
  | cons j rest ih =>
    intro seen
    by_cases h : j.url ≠ "" ∧ j.url ∉ seen
    · simpa [deduplicate_jobs, h] using List.Sublist.cons₂ j (ih (j.url :: seen))
    · simpa [deduplicate_jobs, h] using List.Sublist.cons j (ih seen)

lemma deduplicate_not_seen : ∀ (l : List Job) (seen : List String) (j : Job),
    j ∈ deduplicate_jobs l seen → j.url ∉ seen := by
  intro l
  induction l with
  | nil => intro seen j h; simp [deduplicate_jobs] at h
  | cons x rest ih =>
    intro seen j h
    by_cases hx : x.url ≠ "" ∧ x.url ∉ seen
    · simp only [deduplicate_jobs, if_pos hx, List.mem_cons] at h
      rcases h with rfl | h
      · exact hx.2
      · have := ih (x.url :: seen) j h
        exact fun hm => this (List.mem_cons_of_mem _ hm)
    · rw [deduplicate_jobs, if_neg hx] at h
      exact ih seen j h

lemma deduplicate_nodup : ∀ (l : List Job) (seen : List String),
    ((deduplicate_jobs l seen).map Job.url).Nodup := by
  intro l
  induction l with
  | nil => intro seen; simp [deduplicate_jobs]
  | cons j rest ih =>
    intro seen
    by_cases h : j.url ≠ "" ∧ j.url ∉ seen
    · rw [deduplicate_jobs, if_pos h]
      simp only [List.map_cons, List.nodup_cons]
      refine ⟨?_, ih (j.url :: seen)⟩
      intro hmem
      obtain ⟨k, hk, hku⟩ := List.mem_map.mp hmem
      have := deduplicate_not_seen rest (j.url :: seen) k hk
      exact this (hku ▸ List.mem_cons_self _ _)
    · rw [deduplicate_jobs, if_neg h]
      exact ih seen

lemma deduplicate_covers : ∀ (l : List Job) (seen : List String) (j : Job),
    j ∈ l → j.url ≠ "" → j.url ∉ seen →
      ∃ k ∈ deduplicate_jobs l seen, k.url = j.url := by
  intro l
  induction l with
  | nil => intro seen j h; simp at h
  | cons x rest ih =>
    intro seen j hmem hne hns
    by_cases hx : x.url ≠ "" ∧ x.url ∉ seen
    · rw [deduplicate_jobs, if_pos hx]
      rcases List.mem_cons.mp hmem with rfl | hmem'
      · exact ⟨j, List.mem_cons_self _ _, rfl⟩
      · by_cases hju : j.url = x.url
        · exact ⟨x, List.mem_cons_self _ _, hju.symm⟩
        · obtain ⟨k, hk, hku⟩ := ih (x.url :: seen) j hmem' hne
            (by simp [hju, hns])
          exact ⟨k, List.mem_cons_of_mem _ hk, hku⟩
    · rw [deduplicate_jobs, if_neg hx]
      rcases List.mem_cons.mp hmem with rfl | hmem'
      · push_neg at hx
        exact absurd (hx hne) hns
      · exact ih seen j hmem' hne hns

lemma deduplicate_first : ∀ (l : List Job) (seen : List String) (j : Job),
    (∀ m ∈ l, m.url ≠ "") → j ∈ deduplicate_jobs l seen →
      l.find? (fun m => m.url == j.url) = some j := by
  intro l
  induction l with
  | nil => intro seen j _ h; simp [deduplicate_jobs] at h
  | cons x rest ih =>
    intro seen j hall h
    by_cases hx : x.url ≠ "" ∧ x.url ∉ seen
    · rw [deduplicate_jobs, if_pos hx] at h
      rcases List.mem_cons.mp h with rfl | h'
      · simp [List.find?]
      · have hju : j.url ≠ x.url := by
          have := deduplicate_not_seen rest (x.url :: seen) j h'
          intro he
          exact this (he ▸ List.mem_cons_self _ _)
        rw [List.find?]
        have : (x.url == j.url) = false := beq_eq_false_iff_ne.mpr (fun he => hju he.symm)
        rw [this]
        exact ih (x.url :: seen) j (fun m hm => hall m (List.mem_cons_of_mem _ hm)) h'
    · rw [deduplicate_jobs, if_neg hx] at h
      have hju : j.url ≠ x.url := by
        have hxu : x.url ∈ seen := by
          push_neg at hx
          exact hx (hall x (List.mem_cons_self _ _))
        have := deduplicate_not_seen rest seen j h
        intro he
        exact this (he ▸ hxu)
      rw [List.find?]
      have hbeq : (x.url == j.url) = false := beq_eq_false_iff_ne.mpr (fun he => hju he.symm)
      rw [hbeq]
      exact ih seen j (fun m hm => hall m (List.mem_cons_of_mem _ hm)) h

/-! ## Lemmas about the transport retry loop -/

lemma fetch_page_go_transient_step (attempts : Nat → AttemptOutcome)
    (remaining attempt : Nat) (h : transient_outcome (attempts attempt) = true) :
    fetch_page_go attempts (remaining + 1) attempt =
      fetch_page_go attempts remaining (attempt + 1) := by
  rw [fetch_page_go]
  cases ho : attempts attempt with
  | success html => rw [ho] at h; simp [transient_outcome] at h
  | otherStatus => rw [ho] at h; simp [transient_outcome] at h
  | timeout => rfl
  | connectionError up =>
    rw [ho] at h
    simp only [transient_outcome] at h
    simp [h]
  | httpError st =>
    rw [ho] at h
    simp only [transient_outcome, Bool.and_eq_true, Bool.not_eq_true'] at h
    simp [h.1, h.2]
  | sslError => rw [ho] at h; simp [transient_outcome] at h
  | requestException => rfl

lemma fetch_page_go_429 (attempts : Nat → AttemptOutcome) :
    ∀ (k remaining attempt : Nat), k < remaining →
      (∀ i, i < k → transient_outcome (attempts (attempt + i)) = true) →
      attempts (attempt + k) = .httpError (some 429) →
      fetch_page_go attempts remaining attempt = .error .rateLimited := by
  intro k
  induction k with
  | zero =>
    intro remaining attempt hlt _ h429
    cases remaining with
    | zero => omega
    | succ r =>
      rw [fetch_page_go]
      rw [Nat.add_zero] at h429
      rw [h429]
      simp
  | succ k ih =>
    intro remaining attempt hlt htr h429
    cases remaining with
    | zero => omega
    | succ r =>
      have h0 : transient_outcome (attempts attempt) = true := by
        have := htr 0 (Nat.succ_pos k)
        simpa using this
      rw [fetch_page_go_transient_step attempts r attempt h0]
      refine ih r (attempt + 1) (by omega) ?_ ?_
      · intro i hi
        have := htr (i + 1) (by omega)
        have harith : attempt + (i + 1) = attempt + 1 + i := by omega
        rwa [harith] at this
      · have harith : attempt + (k + 1) = attempt + 1 + k := by omega
        rwa [harith] at h429

/-! ## Lemmas about the scrape loop -/

lemma build_params_keywords (q : SearchQuery) (start : Nat) :
    (build_params q start).keywords = q.keywords := by
  cases hq : q.experience_level with
  | none => simp [build_params, hq]
  | some lvl =>
    cases hl : EXPERIENCE_LEVELS.lookup (py_lower lvl) with
    | none => simp [build_params, hq, hl]
    | some code => simp [build_params, hq, hl]

lemma scrape_loop_terminal (q : SearchQuery) (n : Nat) (oracle : Nat → FetchOutcome)
    (fuel : Nat) (s : RunState) (k : TermKind)
    (hlt : s.all_jobs.length < n) (ho : oracle s.call = .terminal k) (hf : 0 < fuel) :
    scrape_loop q n oracle fuel s = some (.error k) := by
  cases fuel with
  | zero => omega
  | succ f =>
    rw [scrape_loop, if_pos hlt]
    unfold scrape_step
    rw [ho]

lemma scrape_step_next_requests {q : SearchQuery} {n : Nat} {oracle : Nat → FetchOutcome}
    {s s' : RunState} (h : scrape_step q n oracle s = .next s') :
    s'.requests = s.requests ++ [build_params q s.start] := by
  simp only [scrape_step] at h
  cases ho : oracle s.call with
  | terminal k => rw [ho] at h; simp at h
  | noPage =>
    rw [ho] at h
    by_cases hce : s.consecutive_empty + 1 ≥ max_consecutive_empty
    · rw [if_pos hce] at h; simp at h
    · rw [if_neg hce] at h
      injection h with h
      rw [← h]
  | page cards =>
    rw [ho] at h
    dsimp only at h
    by_cases he : (parse_jobs cards).isEmpty
    · rw [if_pos he] at h
      by_cases hce : s.consecutive_empty + 1 ≥ max_consecutive_empty
      · rw [if_pos hce] at h; simp at h
      · rw [if_neg hce] at h
        by_cases hn : s.all_jobs.length ≥ n
        · rw [if_pos hn] at h; simp at h
        · rw [if_neg hn] at h
          injection h with h
          rw [← h]
    · rw [if_neg he] at h
      by_cases hn : (s.all_jobs ++ parse_jobs cards).length ≥ n
      · rw [if_pos hn] at h; simp at h
      · rw [if_neg hn] at h
        injection h with h
        rw [← h]

lemma scrape_step_done_requests {q : SearchQuery} {n : Nat} {oracle : Nat → FetchOutcome}
    {s s' : RunState} {r : StopReason}
    (h : scrape_step q n oracle s = .done (.ok (s', r))) :
    s'.requests = s.requests ++ [build_params q s.start] := by
  simp only [scrape_step] at h
  cases ho : oracle s.call with
  | terminal k => rw [ho] at h; simp at h
  | noPage =>
    rw [ho] at h
    by_cases hce : s.consecutive_empty + 1 ≥ max_consecutive_empty
    · rw [if_pos hce] at h
      simp only [StepResult.done.injEq, Except.ok.injEq, Prod.mk.injEq] at h
      rw [← h.1]
    · rw [if_neg hce] at h; simp at h
  | page cards =>
    rw [ho] at h
    dsimp only at h
    by_cases he : (parse_jobs cards).isEmpty
    · rw [if_pos he] at h
      by_cases hce : s.consecutive_empty + 1 ≥ max_consecutive_empty
      · rw [if_pos hce] at h
        simp only [StepResult.done.injEq, Except.ok.injEq, Prod.mk.injEq] at h
        rw [← h.1]
      · rw [if_neg hce] at h
        by_cases hn : s.all_jobs.length ≥ n
        · rw [if_pos hn] at h
          simp only [StepResult.done.injEq, Except.ok.injEq, Prod.mk.injEq] at h
          rw [← h.1]
        · rw [if_neg hn] at h; simp at h
    · rw [if_neg he] at h
      by_cases hn : (s.all_jobs ++ parse_jobs cards).length ≥ n
      · rw [if_pos hn] at h
        simp only [StepResult.done.injEq, Except.ok.injEq, Prod.mk.injEq] at h
        rw [← h.1]
      · rw [if_neg hn] at h; simp at h

lemma scrape_step_next_lt {q : SearchQuery} {n : Nat} {oracle : Nat → FetchOutcome}
    {s s' : RunState} (h : scrape_step q n oracle s = .next s')
    (hlt : s.all_jobs.length < n) : s'.all_jobs.length < n := by
  simp only [scrape_step] at h
  cases ho : oracle s.call with
  | terminal k => rw [ho] at h; simp at h
  | noPage =>
    rw [ho] at h
    by_cases hce : s.consecutive_empty + 1 ≥ max_consecutive_empty
    · rw [if_pos hce] at h; simp at h
    · rw [if_neg hce] at h
      injection h with h
      rw [← h]
      exact hlt
  | page cards =>
    rw [ho] at h
    dsimp only at h
    by_cases he : (parse_jobs cards).isEmpty
    · rw [if_pos he] at h
      by_cases hce : s.consecutive_empty + 1 ≥ max_consecutive_empty
      · rw [if_pos hce] at h; simp at h
      · rw [if_neg hce] at h
        by_cases hn : s.all_jobs.length ≥ n
        · rw [if_pos hn] at h; simp at h
        · rw [if_neg hn] at h
          injection h with h
          rw [← h]
          exact hlt
    · rw [if_neg he] at h
      by_cases hn : (s.all_jobs ++ parse_jobs cards).length ≥ n
      · rw [if_pos hn] at h; simp at h
      · rw [if_neg hn] at h
        injection h with h
        rw [← h]
        simpa using Nat.lt_of_not_le (by simpa using hn)

lemma scrape_loop_requests (q : SearchQuery) (n : Nat) (oracle : Nat → FetchOutcome) :
    ∀ (fuel : Nat) (s s' : RunState) (r : StopReason),
      scrape_loop q n oracle fuel s = some (.ok (s', r)) →
      (∀ p ∈ s'.requests, p ∈ s.requests ∨ p.keywords = q.keywords) ∧
        (s.all_jobs.length < n → s.requests.length < s'.requests.length) := by
  intro fuel
  induction fuel with
  | zero => intro s s' r h; simp [scrape_loop] at h
  | succ f ih =>
    intro s s' r h
    rw [scrape_loop] at h
    by_cases hlt : s.all_jobs.length < n
    · rw [if_pos hlt] at h
      cases hstep : scrape_step q n oracle s with
      | done r0 =>
        rw [hstep] at h
        dsimp only at h
        injection h with h
        subst h
        have hreq := scrape_step_done_requests hstep
        constructor
        · intro p hp
          rw [hreq] at hp
          rcases List.mem_append.mp hp with hp' | hp'
          · exact Or.inl hp'
          · right
            have : p = build_params q s.start := by simpa using hp'
            rw [this]
            exact build_params_keywords q s.start
        · intro _
          rw [hreq]
          simp
      | next s1 =>
        rw [hstep] at h
        dsimp only at h
        obtain ⟨ihm, ihlen⟩ := ih s1 s' r h
        have hreq := scrape_step_next_requests hstep
        have hlt1 := scrape_step_next_lt hstep hlt
        constructor
        · intro p hp
          rcases ihm p hp with hp' | hp'
          · rw [hreq] at hp'
            rcases List.mem_append.mp hp' with hp'' | hp''
            · exact Or.inl hp''
            · right
              have : p = build_params q s.start := by simpa using hp''
              rw [this]
              exact build_params_keywords q s.start
          · exact Or.inr hp'
        · intro _
          have h1 : s1.requests.length = s.requests.length + 1 := by
            rw [hreq]; simp
          have h2 := ihlen hlt1
          omega
    · rw [if_neg hlt] at h
      injection h with h
      injection h with h
      have hs : s = s' := congrArg Prod.fst h
      constructor
      · intro p hp
        rw [← hs] at hp
        exact Or.inl hp
      · intro hcon
        exact absurd hcon hlt

lemma zero_yield_step_next {q : SearchQuery} {n : Nat} {oracle : Nat → FetchOutcome}
    {s : RunState}
    (hlt : s.all_jobs.length < n)
    (hz : zero_yield (oracle s.call) = true)
    (hce : s.consecutive_empty + 1 < 3) :
    ∃ s', scrape_step q n oracle s = .next s' ∧ s'.all_jobs = s.all_jobs ∧
      s'.consecutive_empty = s.consecutive_empty + 1 ∧ s'.call = s.call + 1 := by
  have hcond : ¬(s.consecutive_empty + 1 ≥ max_consecutive_empty) := by
    simp only [max_consecutive_empty]; omega
  cases ho : oracle s.call with
  | terminal k => rw [ho] at hz; simp [zero_yield] at hz
  | noPage =>
    refine ⟨{ all_jobs := s.all_jobs, start := s.start,
              consecutive_empty := s.consecutive_empty + 1, call := s.call + 1,
              requests := s.requests ++ [build_params q s.start] }, ?_, rfl, rfl, rfl⟩
    unfold scrape_step
    rw [ho]
    dsimp only
    rw [if_neg hcond]
  | page cards =>
    rw [ho] at hz
    simp only [zero_yield] at hz
    have hn : ¬(s.all_jobs.length ≥ n) := by omega
    refine ⟨{ all_jobs := s.all_jobs, start := s.start + JOBS_PER_PAGE,
              consecutive_empty := s.consecutive_empty + 1, call := s.call + 1,
              requests := s.requests ++ [build_params q s.start] }, ?_, rfl, rfl, rfl⟩
    unfold scrape_step
    rw [ho]
    dsimp only
    rw [if_pos hz, if_neg hcond, if_neg hn]

lemma zero_yield_step_done {q : SearchQuery} {n : Nat} {oracle : Nat → FetchOutcome}
    {s : RunState}
    (hz : zero_yield (oracle s.call) = true)
    (hce : s.consecutive_empty + 1 ≥ 3) :
    scrape_step q n oracle s = .done (.ok
      ({ all_jobs := s.all_jobs, start := s.start,
         consecutive_empty := s.consecutive_empty + 1, call := s.call + 1,
         requests := s.requests ++ [build_params q s.start] }, .tooManyEmpty)) := by
  have hcond : s.consecutive_empty + 1 ≥ max_consecutive_empty := by
    simp only [max_consecutive_empty]; omega
  cases ho : oracle s.call with
  | terminal k => rw [ho] at hz; simp [zero_yield] at hz
  | noPage =>
    unfold scrape_step
    rw [ho]
    dsimp only
    rw [if_pos hcond]
  | page cards =>
    rw [ho] at hz
    simp only [zero_yield] at hz
    unfold scrape_step
    rw [ho]
    dsimp only
    rw [if_pos hz, if_pos hcond]

lemma page_step_resets {q : SearchQuery} {n : Nat} {oracle : Nat → FetchOutcome}
    {s : RunState} {cards : List Card}
    (ho : oracle s.call = .page cards) (hne : (parse_jobs cards).isEmpty = false)
    (hlt : s.all_jobs.length < n) :
    ∃ s', (scrape_step q n oracle s = .next s' ∨
           scrape_step q n oracle s = .done (.ok (s', .targetReached))) ∧
      s'.consecutive_empty = 0 := by
  by_cases hn : (s.all_jobs ++ parse_jobs cards).length ≥ n
  · refine ⟨{ all_jobs := s.all_jobs ++ parse_jobs cards, start := s.start + JOBS_PER_PAGE,
              consecutive_empty := 0, call := s.call + 1,
              requests := s.requests ++ [build_params q s.start] }, Or.inr ?_, rfl⟩
    unfold scrape_step
    rw [ho]
    dsimp only
    rw [hne]
    simp only [Bool.false_eq_true, if_false, ite_false]
    rw [if_pos hn]
  · refine ⟨{ all_jobs := s.all_jobs ++ parse_jobs cards, start := s.start + JOBS_PER_PAGE,
              consecutive_empty := 0, call := s.call + 1,
              requests := s.requests ++ [build_params q s.start] }, Or.inl ?_, rfl⟩
    unfold scrape_step
    rw [ho]
    dsimp only
    rw [hne]
    simp only [Bool.false_eq_true, if_false, ite_false]
    rw [if_neg hn]

lemma scrape_eq_of_loop {q : SearchQuery} {n : Nat} {oracle : Nat → FetchOutcome}
    {fuel : Nat} {s : RunState} {r : StopReason}
    (h : scrape_loop q n oracle fuel init_state = some (.ok (s, r))) :
    scrape q n oracle fuel = some (.ok ((deduplicate_jobs s.all_jobs []).take n, r)) := by
  unfold scrape
  rw [h]
  dsimp only
  by_cases hl : (deduplicate_jobs s.all_jobs []).length > n
  · rw [if_pos hl]
  · rw [if_neg hl]
    rw [List.take_of_length_le (by omega)]

lemma zero_yield_three_from (q : SearchQuery) (n : Nat) (oracle : Nat → FetchOutcome)
    (fuel : Nat) (s : RunState)
    (hlt : s.all_jobs.length < n) (hce : s.consecutive_empty = 0) (hfuel : 3 ≤ fuel)
    (hz : ∀ i, i < 3 → zero_yield (oracle (s.call + i)) = true) :
    ∃ s', scrape_loop q n oracle fuel s = some (.ok (s', .tooManyEmpty)) ∧
      s'.all_jobs = s.all_jobs := by
  obtain ⟨f, rfl⟩ : ∃ f, fuel = f + 1 + 1 + 1 := ⟨fuel - 3, by omega⟩
  obtain ⟨s1, hs1, hj1, hc1, hk1⟩ :=
    @zero_yield_step_next q n oracle s
      hlt (by simpa using hz 0 (by omega)) (by omega)
  obtain ⟨s2, hs2, hj2, hc2, hk2⟩ :=
    @zero_yield_step_next q n oracle s1
      (by rw [hj1]; exact hlt)
      (by rw [hk1]; simpa [Nat.add_comm] using hz 1 (by omega))
      (by omega)
  have hs3 :=
    @zero_yield_step_done q n oracle s2
      (by
        rw [hk2, hk1]
        have harith : s.call + 1 + 1 = s.call + 2 := by omega
        rw [harith]
        exact hz 2 (by omega))
      (by omega)
  refine ⟨{ all_jobs := s2.all_jobs, start := s2.start,
            consecutive_empty := s2.consecutive_empty + 1, call := s2.call + 1,
            requests := s2.requests ++ [build_params q s2.start] }, ?_, ?_⟩
  · rw [scrape_loop, if_pos hlt, hs1]
    dsimp only
    rw [scrape_loop, if_pos (by rw [hj1]; exact hlt), hs2]
    dsimp only
    rw [scrape_loop, if_pos (by rw [hj2, hj1]; exact hlt), hs3]
  · rw [hj2, hj1]

lemma zero_yield_three_loop (q : SearchQuery) (n : Nat) (oracle : Nat → FetchOutcome)
    (fuel : Nat) (hn : 0 < n) (hfuel : 3 ≤ fuel)
    (hz : ∀ i, i < 3 → zero_yield (oracle i) = true) :
    ∃ s', scrape_loop q n oracle fuel init_state = some (.ok (s', .tooManyEmpty)) ∧
      s'.all_jobs = [] :=
  zero_yield_three_from q n oracle fuel init_state
    (by simpa [init_state] using hn) rfl hfuel
    (by intro i hi; simpa [init_state] using hz i hi)

/-! ## Claims -/

/-- Claim C1, counterexample: with a transport that yields one productive page
and then rate-limits, a target-5 run returns the bare failure signal
(`Except.error`, which carries no records), even though the very same oracle
with target 1 shows that the first page had already contributed a record.
The accumulated partial results are discarded, contradicting the claim. -/
theorem terminal_failure_discards_partial_cex :
    scrape exQuery 5 cexOracleTerminal 10 = some (.error .rateLimited) ∧
    scrape exQuery 1 cexOracleTerminal 10 = some (.ok ([exJob], .targetReached)) :=
  ⟨rfl, rfl⟩

/-- Claim C1 (amended): when the transport raises a terminal failure partway
through a run, the loop result is the bare `Except.error k` — a value that
carries no record list — so the records accumulated in the state `s` before
the failure are discarded rather than returned alongside the failure. -/
theorem scrape_terminal_failure_discards_accumulated
    (q : SearchQuery) (n : Nat) (oracle : Nat → FetchOutcome) (fuel : Nat)
    (s : RunState) (k : TermKind)
    (hlt : s.all_jobs.length < n) (ho : oracle s.call = .terminal k) (hf : 0 < fuel) :
    scrape_loop q n oracle fuel s = some (.error k) :=
  scrape_loop_terminal q n oracle fuel s k hlt ho hf

/-- Witness for C1's amended theorem at a mid-run state holding one record. -/
theorem scrape_terminal_failure_discards_accumulated_witness :
    scrape_loop exQuery 5 cexOracleTerminal 9
      { all_jobs := [exJob], start := 25, consecutive_empty := 0, call := 1,
        requests := [build_params exQuery 0] } = some (.error .rateLimited) :=
  scrape_terminal_failure_discards_accumulated exQuery 5 cexOracleTerminal 9
    { all_jobs := [exJob], start := 25, consecutive_empty := 0, call := 1,
      requests := [build_params exQuery 0] } .rateLimited (by decide) rfl (by decide)

/-- Claim C2, counterexample: the loop appends a page's records without any
deduplication, so after one page containing two records with the same url the
accumulated state holds both, and a target of 2 is considered reached even
though only one unique record exists; the returned result (after the single
post-loop dedupe) has just one record. -/
theorem accumulation_contains_duplicates_cex :
    scrape_loop exQuery 2 cexOracleDup 10 init_state =
      some (.ok ({ all_jobs := [exJob, exJobB], start := 25, consecutive_empty := 0,
                   call := 1, requests := [build_params exQuery 0] },
                 .targetReached)) ∧
    exJob.url = exJobB.url ∧ exJob ≠ exJobB ∧
    scrape exQuery 2 cexOracleDup 10 = some (.ok ([exJob], .targetReached)) :=
  ⟨rfl, rfl, by decide, rfl⟩

/-- Claim C2 (amended): deduplication happens once, after the loop ends, so
while the in-loop accumulation may hold duplicates (and the targetCount test
counts them), the final returned record list never contains two records with
the same url. -/
theorem scrape_final_result_nodup (q : SearchQuery) (n : Nat)
    (oracle : Nat → FetchOutcome) (fuel : Nat) (jobs : List Job) (r : StopReason)
    (h : scrape q n oracle fuel = some (.ok (jobs, r))) :
    (jobs.map Job.url).Nodup := by
  unfold scrape at h
  cases hl : scrape_loop q n oracle fuel init_state with
  | none => rw [hl] at h; simp at h
  | some res =>
    rw [hl] at h
    cases res with
    | error k => simp at h
    | ok p =>
      obtain ⟨s, r'⟩ := p
      dsimp only at h
      simp only [Option.some.injEq, Except.ok.injEq, Prod.mk.injEq] at h
      obtain ⟨hjobs, -⟩ := h
      rw [← hjobs]
      by_cases hlen : (deduplicate_jobs s.all_jobs []).length > n
      · rw [if_pos hlen]
        have hsub : List.Sublist ((deduplicate_jobs s.all_jobs []).take n)
            (deduplicate_jobs s.all_jobs []) := List.take_sublist n _
        exact ((hsub.map Job.url).nodup (deduplicate_nodup s.all_jobs []))
      · rw [if_neg hlen]
        exact deduplicate_nodup s.all_jobs []

/-- Witness for C2's amended theorem on a run whose page held a duplicate. -/
theorem scrape_final_result_nodup_witness :
    (([exJob] : List Job).map Job.url).Nodup :=
  scrape_final_result_nodup exQuery 2 cexOracleDup 10 [exJob] .targetReached rfl

/-- Claim C3, counterexample: a scrape call whose query has empty keywords is
not rejected — no validation error exists anywhere in `scrape` — and the run
issues three network requests, each carrying the empty keywords, before
stopping for emptiness. -/
theorem empty_keywords_still_fetches_cex :
    scrape_loop exQueryEmptyKw 1 (fun _ => .noPage) 10 init_state =
      some (.ok ({ all_jobs := [], start := 0, consecutive_empty := 3, call := 3,
                   requests := [{ keywords := "", location := "India", start := 0, f_E := none },
                                { keywords := "", location := "India", start := 0, f_E := none },
                                { keywords := "", location := "India", start := 0, f_E := none }] },
                 .tooManyEmpty)) :=
  rfl

/-- Claim C3 (amended): `scrape` performs no keyword validation at all.  A run
whose query has empty keywords proceeds to issue at least one network request
(when the target is positive), and every request it issues carries the empty
keywords string. -/
theorem scrape_empty_keywords_no_validation
    (q : SearchQuery) (n : Nat) (oracle : Nat → FetchOutcome) (fuel : Nat)
    (s : RunState) (r : StopReason)
    (hk : q.keywords = "") (hn : 0 < n)
    (h : scrape_loop q n oracle fuel init_state = some (.ok (s, r))) :
    s.requests ≠ [] ∧ ∀ p ∈ s.requests, p.keywords = "" := by
  obtain ⟨hmem, hlen⟩ := scrape_loop_requests q n oracle fuel init_state s r h
  constructor
  · have := hlen (by simpa [init_state] using hn)
    intro hnil
    rw [hnil] at this
    simp [init_state] at this
  · intro p hp
    rcases hmem p hp with hp' | hp'
    · simp [init_state] at hp'
    · rw [hp', hk]

/-- Witness for C3's amended theorem on the concrete empty-keywords run. -/
theorem scrape_empty_keywords_no_validation_witness :
    ({ all_jobs := [], start := 0, consecutive_empty := 3, call := 3,
       requests := [{ keywords := "", location := "India", start := 0, f_E := none },
                    { keywords := "", location := "India", start := 0, f_E := none },
                    { keywords := "", location := "India", start := 0, f_E := none }] } :
      RunState).requests ≠ [] :=
  (scrape_empty_keywords_no_validation exQueryEmptyKw 1 (fun _ => .noPage) 10
    { all_jobs := [], start := 0, consecutive_empty := 3, call := 3,
      requests := [{ keywords := "", location := "India", start := 0, f_E := none },
                   { keywords := "", location := "India", start := 0, f_E := none },
                   { keywords := "", location := "India", start := 0, f_E := none }] }
    .tooManyEmpty rfl (by decide) rfl).1

/-- Claim C4: whenever the scrape loop completes normally (any stop reason),
`scrape` returns the first `n` records, in encounter order, of the
deduplicated accumulation — hence never more than `n` records. -/
theorem scrape_trim_invariant (q : SearchQuery) (n : Nat)
    (oracle : Nat → FetchOutcome) (fuel : Nat) (s : RunState) (r : StopReason)
    (h : scrape_loop q n oracle fuel init_state = some (.ok (s, r))) :
    scrape q n oracle fuel = some (.ok ((deduplicate_jobs s.all_jobs []).take n, r))
      ∧ ((deduplicate_jobs s.all_jobs []).take n).length ≤ n := by
  refine ⟨scrape_eq_of_loop h, ?_⟩
  rw [List.length_take]
  omega

/-- Witness for C4 on a run that accumulated two records (one a duplicate)
with target 1: the returned list is trimmed to a single record. -/
theorem scrape_trim_invariant_witness :
    scrape exQuery 1 cexOracleDup 10 =
      some (.ok ((deduplicate_jobs [exJob, exJobB] []).take 1, .targetReached))
      ∧ ((deduplicate_jobs [exJob, exJobB] []).take 1).length ≤ 1 :=
  scrape_trim_invariant exQuery 1 cexOracleDup 10
    { all_jobs := [exJob, exJobB], start := 25, consecutive_empty := 0, call := 1,
      requests := [build_params exQuery 0] } .targetReached rfl

/-- Claim C5: an HTTP attempt answered with status 429, after any run of
transient attempts, makes `fetch_page` raise the terminal `RateLimited`
failure at once — the result does not depend on any later attempt, so no
retry happens — and a terminal `RateLimited` transport outcome ends the whole
scrape run with that failure. -/
theorem http_429_terminal_rate_limited :
    (∀ (attempts : Nat → AttemptOutcome) (max_retries k : Nat),
      k < max_retries →
      (∀ i, i < k → transient_outcome (attempts i) = true) →
      attempts k = .httpError (some 429) →
      fetch_page attempts max_retries = .error .rateLimited) ∧
    (∀ (q : SearchQuery) (n : Nat) (oracle : Nat → FetchOutcome) (fuel : Nat),
      0 < n → 0 < fuel → oracle 0 = .terminal .rateLimited →
      scrape q n oracle fuel = some (.error .rateLimited)) := by
  constructor
  · intro attempts max_retries k hk htr h429
    unfold fetch_page
    refine fetch_page_go_429 attempts k max_retries 0 hk ?_ ?_
    · intro i hi
      rw [Nat.zero_add]
      exact htr i hi
    · rw [Nat.zero_add]
      exact h429
  · intro q n oracle fuel hn hf ho
    have hloop := scrape_loop_terminal q n oracle fuel init_state .rateLimited
      (by simpa [init_state] using hn) (by simpa [init_state] using ho) hf
    unfold scrape
    rw [hloop]

/-- Witness for C5: a timeout followed by a 429 raises `RateLimited` with
retries remaining, and a first-fetch 429 ends a concrete run. -/
theorem http_429_terminal_rate_limited_witness :
    fetch_page (fun i => if i = 0 then .timeout else .httpError (some 429)) 3 =
        .error .rateLimited ∧
      scrape exQuery 5 (fun _ => .terminal .rateLimited) 10 =
        some (.error .rateLimited) :=
  ⟨http_429_terminal_rate_limited.1 (fun i => if i = 0 then .timeout else .httpError (some 429))
      3 1 (by decide)
      (by
        intro i hi
        have hi0 : i = 0 := by omega
        rw [hi0]
        decide) rfl,
   http_429_terminal_rate_limited.2 exQuery 5 (fun _ => .terminal .rateLimited) 10
      (by decide) (by decide) rfl⟩

/-- Claim C6: a candidate card is accepted as a record exactly when its
extracted title and url are both non-sentinel and the normalized title has
length at least 2; every other candidate is silently dropped (`none`). -/
theorem parse_job_card_acceptance (card : Card) :
    (parse_job_card card).isSome = true ↔
      (extract_title card ≠ "N/A" ∧ 2 ≤ (extract_title card).length ∧
       extract_url card ≠ "N/A") := by
  simp only [parse_job_card]
  by_cases h1 : extract_title card = "N/A" ∨ (extract_title card).length < 2
  · rw [if_pos h1]
    simp only [Option.isSome_none, Bool.false_eq_true, false_iff]
    intro hc
    rcases h1 with h1 | h1
    · exact hc.1 h1
    · have := hc.2.1
      omega
  · rw [if_neg h1]
    push_neg at h1
    by_cases h2 : extract_title card ≠ "N/A" ∧ extract_url card ≠ "N/A"
    · rw [if_pos h2]
      simp only [Option.isSome_some, true_iff]
      exact ⟨h1.1, by omega, h2.2⟩
    · rw [if_neg h2]
      simp only [Option.isSome_none, Bool.false_eq_true, false_iff]
      intro hc
      exact h2 ⟨hc.1, hc.2.2⟩

/-- Claim C7: every accepted record's url contains no `'?'` and starts with
`"http"` (the code's own absoluteness test), and `normalize_url` follows
exactly the three spec rules: origin-prefix for site-relative hrefs,
origin-plus-slash for scheme-less hrefs, and query-string stripping. -/
theorem accepted_url_absolute_no_query :
    (∀ (card : Card) (j : Job), parse_job_card card = some j →
      py_in '?' j.url.data = false ∧ pyStartsWith j.url "http" = true) ∧
    (∀ h : String,
      (pyStartsWith h "/" = true → normalize_url h = strip_query (SITE_ORIGIN ++ h)) ∧
      (pyStartsWith h "/" = false → pyStartsWith h "http" = false →
        normalize_url h = strip_query (SITE_ORIGIN ++ "/" ++ h)) ∧
      (pyStartsWith h "/" = false → pyStartsWith h "http" = true →
        normalize_url h = strip_query h)) := by
  constructor
  · intro card j hp
    obtain ⟨u, -, hu⟩ := parse_job_card_url_normalized hp
    rw [hu]
    exact ⟨normalize_url_no_q u, normalize_url_http u⟩
  · intro h
    refine ⟨?_, ?_, ?_⟩
    · intro h1
      simp [normalize_url, h1]
    · intro h1 h2
      simp [normalize_url, h1, h2]
    · intro h1 h2
      simp [normalize_url, h1, h2]

/-- Witness for C7 at the concrete card whose href is site-relative with a
query string. -/
theorem accepted_url_absolute_no_query_witness :
    (py_in '?' exJob.url.data = false ∧ pyStartsWith exJob.url "http" = true) ∧
    normalize_url "/jobs/view/9?refId=abc" =
      strip_query (SITE_ORIGIN ++ "/jobs/view/9?refId=abc") :=
  ⟨accepted_url_absolute_no_query.1 exCard exJob rfl,
   (accepted_url_absolute_no_query.2 "/jobs/view/9?refId=abc").1 rfl⟩

/-- Claim C8: records produced by extraction never have an empty url, and on
any list of such records the deduplicator returns a subsequence (first-seen
order preserved) with pairwise-distinct urls that covers every input url,
each kept record being the first of the input with its url; later duplicates
are dropped without error. -/
theorem dedupe_keeps_first_per_url :
    (∀ (card : Card) (j : Job), parse_job_card card = some j → j.url ≠ "") ∧
    (∀ l : List Job, (∀ j ∈ l, j.url ≠ "") →
      List.Sublist (deduplicate_jobs l []) l ∧
      ((deduplicate_jobs l []).map Job.url).Nodup ∧
      (∀ j ∈ l, ∃ k ∈ deduplicate_jobs l [], k.url = j.url) ∧
      (∀ j ∈ deduplicate_jobs l [], l.find? (fun m => m.url == j.url) = some j)) := by
  constructor
  · intro card j hp
    exact parse_job_card_url_nonempty hp
  · intro l hall
    refine ⟨deduplicate_sublist l [], deduplicate_nodup l [], ?_, ?_⟩
    · intro j hj
      exact deduplicate_covers l [] j hj (hall j hj) (by simp)
    · intro j hj
      exact deduplicate_first l [] j hall hj

/-- Witness for C8 on a concrete list holding a duplicate url. -/
theorem dedupe_keeps_first_per_url_witness :
    List.Sublist (deduplicate_jobs [exJob, exJobB] []) [exJob, exJobB] ∧
    ((deduplicate_jobs [exJob, exJobB] []).map Job.url).Nodup :=
  ⟨(dedupe_keeps_first_per_url.2 [exJob, exJobB] (by decide)).1,
   (dedupe_keeps_first_per_url.2 [exJob, exJobB] (by decide)).2.1⟩

/-- Claim C9: three consecutive zero-yield iterations (failed fetch or empty
parse, in any mix) end the run with reason `TooManyConsecutiveEmptyPages`
however large the target is, while an iteration whose page yields at least
one accepted record resets the consecutive-empty counter to zero. -/
theorem three_empty_pages_stop_run :
    (∀ (q : SearchQuery) (n fuel : Nat) (oracle : Nat → FetchOutcome),
      0 < n → 3 ≤ fuel → (∀ i, i < 3 → zero_yield (oracle i) = true) →
      scrape q n oracle fuel = some (.ok ([], .tooManyEmpty))) ∧
    (∀ (q : SearchQuery) (n fuel : Nat) (oracle : Nat → FetchOutcome) (s : RunState),
      s.all_jobs.length < n → s.consecutive_empty = 0 → 3 ≤ fuel →
      (∀ i, i < 3 → zero_yield (oracle (s.call + i)) = true) →
      ∃ s', scrape_loop q n oracle fuel s = some (.ok (s', .tooManyEmpty)) ∧
        s'.all_jobs = s.all_jobs) ∧
    (∀ (q : SearchQuery) (n : Nat) (oracle : Nat → FetchOutcome) (s : RunState)
       (cards : List Card),
      oracle s.call = .page cards → (parse_jobs cards).isEmpty = false →
      s.all_jobs.length < n →
      ∃ s', (scrape_step q n oracle s = .next s' ∨
             scrape_step q n oracle s = .done (.ok (s', .targetReached))) ∧
        s'.consecutive_empty = 0) := by
  refine ⟨?_, ?_, ?_⟩
  · intro q n fuel oracle hn hfuel hz
    obtain ⟨s', hloop, hjobs⟩ := zero_yield_three_loop q n oracle fuel hn hfuel hz
    rw [scrape_eq_of_loop hloop, hjobs]
    simp [deduplicate_jobs]
  · intro q n fuel oracle s hlt hce hfuel hz
    exact zero_yield_three_from q n oracle fuel s hlt hce hfuel hz
  · intro q n oracle s cards ho hne hlt
    exact page_step_resets ho hne hlt

/-- Witness for C9: a transport that always fails stops a target-5 run after
three iterations, and a productive first page resets the counter to zero. -/
theorem three_empty_pages_stop_run_witness :
    scrape exQuery 5 (fun _ => .noPage) 3 = some (.ok ([], .tooManyEmpty)) ∧
    (∃ s', scrape_loop exQuery 5 (fun _ => .noPage) 3 init_state =
        some (.ok (s', .tooManyEmpty)) ∧ s'.all_jobs = init_state.all_jobs) ∧
    (∃ s', (scrape_step exQuery 5 cexOracleDup init_state = .next s' ∨
            scrape_step exQuery 5 cexOracleDup init_state =
              .done (.ok (s', .targetReached))) ∧
       s'.consecutive_empty = 0) :=
  ⟨three_empty_pages_stop_run.1 exQuery 5 3 (fun _ => .noPage) (by decide) (by decide)
      (by decide),
   three_empty_pages_stop_run.2.1 exQuery 5 3 (fun _ => .noPage) init_state
      (by decide) rfl (by decide) (by decide),
   three_empty_pages_stop_run.2.2 exQuery 5 cexOracleDup init_state [exCard, exCardB]
      rfl (by decide) (by decide)⟩

/-- Claim C10: blank (empty or whitespace-only) input makes
`validate_job_count` return the default 50 before the maximum is ever
consulted, so with a configured maximum of 10 the returned count 50 exceeds
it — while the same count given explicitly is rejected. -/
theorem blank_job_count_bypasses_max :
    (∀ (max_limit : Int) (value : String), py_strip value.data = [] →
      validate_job_count value max_limit = .ok 50) ∧
    validate_job_count "" 10 = .ok 50 ∧
    validate_job_count "50" 10 = .error "exceeds maximum limit" := by
  refine ⟨?_, rfl, rfl⟩
  intro max_limit value hv
  unfold validate_job_count
  rw [if_pos hv]

/-- Witness for C10 on whitespace-only input with maximum 10. -/
theorem blank_job_count_bypasses_max_witness :
    validate_job_count "   " 10 = .ok 50 :=
  blank_job_count_bypasses_max.1 10 "   " (by decide)
